import Mathlib

/-!
Verification of the `geo-rules` converter (src/geo-rules.py).

The script downloads a ZIP archive of rule lists, extracts JSON rule files,
and rewrites each one into a line-oriented "payload" text format.  This file
gives a shallow embedding of the script's data model and operations:

* JSON values parsed by `json.load` are modelled by the inductive `Json`
  (numbers are modelled as integers; no rule file uses fractional numbers).
* Python exceptions are modelled by the inductive `PyErr`; fallible code
  returns `Except PyErr _`.
* Python string/path primitives used by the script (`os.path.basename`,
  `str.replace`, the `in` operator, `os.path.join`, `"\n".join`) are embedded
  as executable character-list functions so that every definition evaluates
  by kernel reduction.
* The filesystem side effects of the driver (`main`) are modelled by explicit
  state passing over a small `World` record that tracks the two temporary
  artifacts (extraction directory, downloaded archive).
-/

namespace GeoRules

/-- A parsed JSON value, the result of `json.load`.  Object fields keep the
source order (Python 3 dicts preserve insertion order); keys of a parsed
object are distinct.  JSON numbers are modelled as integers. -/
inductive Json where
  | null
  | bool (b : Bool)
  | num (n : Int)
  | str (s : String)
  | arr (elems : List Json)
  | obj (fields : List (String × Json))

/-- Python exception classes raised (or raisable) by the script. -/
inductive PyErr where
  | keyError (msg : String)
  | indexError (msg : String)
  | typeError (msg : String)
  | attributeError (msg : String)
  | valueError (msg : String)
  | fileNotFoundError (msg : String)
  | calledProcessError (msg : String)
  | jsonDecodeError (msg : String)
  | ioError (msg : String)

/-- True exactly on `Except.ok`. -/
def exOk {ε α : Type} : Except ε α → Bool
  | .ok _ => true
  | .error _ => false

/-! ## Python string and path primitives -/

/-- The single-quote character (written via its code point). -/
def squote : Char := Char.ofNat 39

/-- The double-quote character (written via its code point). -/
def dquote : Char := Char.ofNat 34

/-- Python `os.path.basename` (posix): the part of the path after the last
slash, i.e. `p[p.rfind(chr(47))+1:]`. -/
def basename (p : String) : String :=
  String.mk ((p.data.reverse.takeWhile (fun c => c != '/')).reverse)

/-- Worker for `strReplace`, recursing on explicit fuel (initially the length
of the subject, enough for a non-empty pattern): scans left to right and
replaces each non-overlapping occurrence of `pat` by `rep`, exactly like
Python `str.replace` with a non-empty pattern. -/
def replaceAllAux (pat rep : List Char) : Nat → List Char → List Char
  | 0, _ => []
  | _, [] => []
  | fuel + 1, c :: cs =>
    if pat.isPrefixOf (c :: cs) then rep ++ replaceAllAux pat rep fuel ((c :: cs).drop pat.length)
    else c :: replaceAllAux pat rep fuel cs

/-- Python `s.replace(pat, rep)` for a non-empty `pat`: replace every
occurrence, left to right, without rescanning the replacement text. -/
def strReplace (s pat rep : String) : String :=
  String.mk (replaceAllAux pat.data rep.data s.data.length s.data)

/-- Worker for `pyIn`: does `pat` occur as a contiguous subsequence? -/
def containsSeqAux (pat : List Char) : List Char → Bool
  | [] => pat.isEmpty
  | c :: cs => pat.isPrefixOf (c :: cs) || containsSeqAux pat cs

/-- Python `pat in s` on strings: substring containment. -/
def pyIn (s pat : String) : Bool := containsSeqAux pat.data s.data

/-- Does the string start with a slash?  (`b.startswith(sep)` in
`posixpath.join`.) -/
def startsWithSlash (s : String) : Bool :=
  match s.data.head? with
  | some c => c == '/'
  | none => false

/-- Does the string end with a slash?  (`path.endswith(sep)` in
`posixpath.join`.) -/
def endsWithSlash (s : String) : Bool :=
  match s.data.getLast? with
  | some c => c == '/'
  | none => false

/-- Python `os.path.join(a, b)` (posix, two components): an absolute second
component replaces the first; otherwise the parts are glued with a slash
unless the first part is empty or already ends in one. -/
def path_join2 (a b : String) : String :=
  if startsWithSlash b then b
  else if a = "" then b
  else if endsWithSlash a then a ++ b
  else a ++ "/" ++ b

/-- Python `"\n".join(lines)`. -/
def joinLines : List String → String
  | [] => ""
  | [l] => l
  | l :: l' :: ls => l ++ "\n" ++ joinLines (l' :: ls)

/-! ## Python stringification (`str()` inside the f-strings)

Rule values are strings in practice, and `str()` of a Python `str` is the
identity; the remaining cases model `str()`/`repr()` of the other shapes a
parsed-JSON value can take (containers render their elements with `repr`;
for strings `repr` picks double quotes when the text holds a single quote
but no double quote, and the common escapes are modelled). -/

/-- One character of Python `repr` of a string, given the chosen quote. -/
def pyEscapeChar (q : Char) (c : Char) : List Char :=
  if c = '\\' then ['\\', '\\']
  else if c = '\n' then ['\\', 'n']
  else if c = '\r' then ['\\', 'r']
  else if c = '\t' then ['\\', 't']
  else if c = q then ['\\', c]
  else [c]

/-- Python `repr` of a `str` value. -/
def pyStrRepr (s : String) : String :=
  let q := if s.data.contains squote && !(s.data.contains dquote) then dquote else squote
  String.mk (q :: (s.data.map (pyEscapeChar q)).flatten ++ [q])

mutual

/-- Python `repr` of a parsed-JSON value. -/
def pyRepr : Json → String
  | .null => "None"
  | .bool true => "True"
  | .bool false => "False"
  | .num n => toString n
  | .str s => pyStrRepr s
  | .arr xs => "[" ++ pyReprElems xs ++ "]"
  | .obj kvs => "\x7b" ++ pyReprFields kvs ++ "\x7d"

/-- Comma-separated `repr`s of list elements. -/
def pyReprElems : List Json → String
  | [] => ""
  | [x] => pyRepr x
  | x :: y :: xs => pyRepr x ++ ", " ++ pyReprElems (y :: xs)

/-- Comma-separated `repr`s of dict entries. -/
def pyReprFields : List (String × Json) → String
  | [] => ""
  | [(k, v)] => pyStrRepr k ++ ": " ++ pyRepr v
  | (k, v) :: f :: kvs => pyStrRepr k ++ ": " ++ pyRepr v ++ ", " ++ pyReprFields (f :: kvs)

end

/-- Python `str()` of a parsed-JSON value, as used by the f-strings of
`format_to_payload`: the identity on strings, `repr`-like otherwise. -/
def pyStr (v : Json) : String :=
  match v with
  | .str s => s
  | v => pyRepr v

/-! ## Python dynamic operations on parsed JSON -/

/-- Python subscription `j[key]` with a string key: a dict lookup
(`KeyError` when absent), `TypeError` on every non-dict value. -/
def getItemKey (j : Json) (key : String) : Except PyErr Json :=
  match j with
  | .obj kvs =>
    match kvs.lookup key with
    | some v => .ok v
    | none => .error (.keyError key)
  | .arr _ => .error (.typeError "list indices must be integers or slices, not str")
  | .str _ => .error (.typeError "string indices must be integers")
  | _ => .error (.typeError "object is not subscriptable")

/-- Python subscription `j[0]`: first element of a list (`IndexError` when
empty), first character of a string, `KeyError` on a (string-keyed) dict,
`TypeError` on the scalar values. -/
def getItem0 : Json → Except PyErr Json
  | .arr [] => .error (.indexError "list index out of range")
  | .arr (x :: _) => .ok x
  | .str s =>
    match s.data with
    | [] => .error (.indexError "string index out of range")
    | c :: _ => .ok (.str (String.mk [c]))
  | .obj _ => .error (.keyError "0")
  | _ => .error (.typeError "object is not subscriptable")

/-- Dict lookup with a default, `d.get(key, dflt)` on an actual dict. -/
def dictGetD (kvs : List (String × Json)) (key : String) (dflt : Json) : Json :=
  match kvs.lookup key with
  | some v => v
  | none => dflt

/-- Python `j.get(key, dflt)`: only dicts have a `get` method; every other
value raises `AttributeError`. -/
def pyDictGet (j : Json) (key : String) (dflt : Json) : Except PyErr Json :=
  match j with
  | .obj kvs => .ok (dictGetD kvs key dflt)
  | _ => .error (.attributeError "object has no attribute get")

/-- Python iteration `for x in j`: lists yield their elements, strings their
characters (as one-character strings), dicts their keys; the scalar values
raise `TypeError`. -/
def pyIter : Json → Except PyErr (List Json)
  | .arr xs => .ok xs
  | .str s => .ok (s.data.map (fun c => Json.str (String.mk [c])))
  | .obj kvs => .ok (kvs.map (fun kv => Json.str kv.fst))
  | _ => .error (.typeError "object is not iterable")

/-! ## Rule Loader (`load_json`) -/

/-- `load_json`: the file read and `json.load` are modelled by taking the
parse outcome as input; a parse failure is re-raised as a
`json.JSONDecodeError` whose message names the offending file. -/
def load_json (file_path : String) (parsed : Except String Json) : Except PyErr Json :=
  match parsed with
  | .ok j => .ok j
  | .error e => .error (.jsonDecodeError ("解析JSON文件 " ++ file_path ++ " 失败: " ++ e))

/-! ## Rule Extractor (`extract_rules`) -/

/-- The result of `extract_rules`: the dict
`d("domain", raw value) d("domain_suffix", normalized list) d("ip_cidr", raw value)`.
`domain` and `ip_cidr` are whatever `rules.get` returned; `domain_suffix`
has been normalized to a list. -/
structure RuleSetRaw where
  domain : Json
  domain_suffix : List Json
  ip_cidr : Json

/-- The `domain_suffix` normalization block of `extract_rules`: a bare string
becomes a one-element list, a list stays as-is, anything else becomes the
empty list. -/
def suffix_norm (ds : Json) : List Json :=
  match ds with
  | .str s => [.str s]
  | .arr xs => xs
  | _ => []

/-- Message prefix of the structural `KeyError` re-raised by `extract_rules`. -/
def structMsg (m : String) : String := "JSON结构错误，无法提取规则列表: " ++ m

/-- `extract_rules`: take `json_data` subscripted at `"rules"`, then its first
element, read the three fields with `.get(_, [])`, normalize
`domain_suffix`; a `KeyError` or `IndexError` anywhere in the block is
re-raised as a structural `KeyError` (other exceptions propagate unchanged). -/
def extract_rules (json_data : Json) : Except PyErr RuleSetRaw :=
  let body : Except PyErr RuleSetRaw :=
    match getItemKey json_data "rules" with
    | .error e => .error e
    | .ok rules_list =>
      match getItem0 rules_list with
      | .error e => .error e
      | .ok rules =>
        match pyDictGet rules "domain_suffix" (.arr []) with
        | .error e => .error e
        | .ok ds =>
          match pyDictGet rules "domain" (.arr []) with
          | .error e => .error e
          | .ok d =>
            match pyDictGet rules "ip_cidr" (.arr []) with
            | .error e => .error e
            | .ok ip => .ok ⟨d, suffix_norm ds, ip⟩
  match body with
  | .error (.keyError m) => .error (.keyError (structMsg m))
  | .error (.indexError m) => .error (.keyError (structMsg m))
  | r => r

/-! ## Payload Formatter (`format_to_payload`) -/

/-- A rule set at the type `format_to_payload` is declared with
(`Dict[str, List[str]]`): three lists of strings. -/
structure RuleSet where
  domain : List String
  domain_suffix : List String
  ip_cidr : List String

/-- The f-string for a domain entry: `  - (quote)value(quote)`. -/
def domain_line (v : String) : String := "  - \x27" ++ v ++ "\x27"

/-- The f-string for a domain-suffix entry: `  - (quote)+.value(quote)`. -/
def suffix_line (v : String) : String := "  - \x27+." ++ v ++ "\x27"

/-- The f-string for an ip-cidr entry: `  - (quote)value(quote)`. -/
def ip_line (v : String) : String := "  - \x27" ++ v ++ "\x27"

/-- The `payload_lines` list built by `format_to_payload`: start from
`payload:`, then append one line per entry of each of the three lists,
in source order. -/
def payload_lines (rules : RuleSet) : List String :=
  let ls : List String := ["payload:"]
  let ls := rules.domain.foldl (fun acc d => acc ++ [domain_line d]) ls
  let ls := rules.domain_suffix.foldl (fun acc s => acc ++ [suffix_line s]) ls
  let ls := rules.ip_cidr.foldl (fun acc ip => acc ++ [ip_line ip]) ls
  ls

/-- `format_to_payload` at its declared type: join the payload lines with a
single newline. -/
def format_to_payload (rules : RuleSet) : String := joinLines (payload_lines rules)

/-- `format_to_payload` as dynamically executed on the dict produced by
`extract_rules`: the two `for` loops over `domain` and `ip_cidr` iterate
whatever value is there (`TypeError` when it is not iterable), and each
f-string stringifies its element with `str()`. -/
def format_to_payload_dyn (rules : RuleSetRaw) : Except PyErr String :=
  match pyIter rules.domain with
  | .error e => .error e
  | .ok ds =>
    match pyIter rules.ip_cidr with
    | .error e => .error e
    | .ok ips =>
      .ok (format_to_payload ⟨ds.map pyStr, rules.domain_suffix.map pyStr, ips.map pyStr⟩)

/-! ## File Writer and per-file pipeline (`save_to_file`, `process_json_file`) -/

/-- One file written by `save_to_file`: destination path and text content. -/
structure WriteOp where
  path : String
  content : String

/-- The output-path computation of `process_json_file`: drop every `.json`
occurrence from the basename, then route by which marker substring the input
path holds: `geosite` gets prefix `site_` in the `geosite` output folder,
otherwise `geoip` gets prefix `ip_` in the `geoip` folder, otherwise no
prefix in the `geosite` folder. -/
def output_path (json_path output_base_dir : String) : String :=
  let filename := strReplace (basename json_path) ".json" ""
  if pyIn json_path "geosite" then
    path_join2 (path_join2 output_base_dir "geosite") ("site_" ++ filename ++ ".txt")
  else if pyIn json_path "geoip" then
    path_join2 (path_join2 output_base_dir "geoip") ("ip_" ++ filename ++ ".txt")
  else
    path_join2 (path_join2 output_base_dir "geosite") (filename ++ ".txt")

/-- The `try` block of `process_json_file`: Loader, Extractor, Formatter,
then `save_to_file` at the routed output path.  `parsed` is the parse
outcome of the file at `json_path`; `writeOk` says whether writing a given
path succeeds (`save_to_file` re-raises an `IOError` otherwise). -/
def pipeline (parsed : Except String Json) (json_path output_base_dir : String)
    (writeOk : String → Bool) : Except PyErr WriteOp :=
  match load_json json_path parsed with
  | .error e => .error e
  | .ok json_data =>
    match extract_rules json_data with
    | .error e => .error e
    | .ok rules =>
      match format_to_payload_dyn rules with
      | .error e => .error e
      | .ok payload_content =>
        let out := output_path json_path output_base_dir
        if writeOk out then .ok ⟨out, payload_content⟩
        else .error (.ioError "文件保存失败")

/-- `process_json_file`: run the pipeline, return `true` plus the performed
write on success; every exception of any class is caught (the two `except`
arms of the source cover `JSONDecodeError`, `KeyError`, `IOError` and then
`Exception`), yielding `false` and no write. -/
def process_json_file (parsed : Except String Json) (json_path output_base_dir : String)
    (writeOk : String → Bool) : Bool × List WriteOp :=
  match pipeline parsed json_path output_base_dir writeOk with
  | .ok w => (true, [w])
  | .error _ => (false, [])

/-! ## Batch Driver (`main`) -/

/-- One discovered `.json` file: its path and the parse outcome of its
content. -/
structure FileEntry where
  path : String
  parsed : Except String Json

/-- The per-file loop of `main` over the discovered `.json` files: each file
bumps the total counter, a successful `process_json_file` bumps the success
counter, and the performed writes accumulate in order. -/
def run_batch (files : List FileEntry) (output_base_dir : String)
    (writeOk : String → Bool) : Nat × Nat × List WriteOp :=
  match files with
  | [] => (0, 0, [])
  | f :: rest =>
    let (ok, ws) := process_json_file f.parsed f.path output_base_dir writeOk
    let (t, s, rws) := run_batch rest output_base_dir writeOk
    (t + 1, (if ok then 1 else 0) + s, ws ++ rws)

/-- The on-disk temporary artifacts of a run: the extraction directory
(`temp_extract`) and the downloaded archive (`meta-rules-main.zip`). -/
structure World where
  tempDirExists : Bool
  zipFileExists : Bool

/-- The outcomes of the effectful stages of one run, fixed up front so the
driver can be run as a pure state transformer: availability of the external
tools, success of the download/type-check/extraction, presence of the
expected directory layout, the discovered files, and write success. -/
structure RunEnv where
  wgetAvailable : Bool
  downloadOk : Bool
  downloadedIsZip : Bool
  unzipAvailable : Bool
  extractOk : Bool
  geoDirExists : Bool
  files : List FileEntry
  writeOk : String → Bool

/-- `download_zip` as a state transformer: missing `wget` raises
`FileNotFoundError`; otherwise any old archive is removed, the download
writes the archive (also left behind on a failed transfer), and a non-ZIP
result raises `ValueError`. -/
def download_zip_run (env : RunEnv) (w : World) : World × Option PyErr :=
  if !env.wgetAvailable then
    (w, some (.fileNotFoundError "系统未找到wget命令，请确保已安装wget"))
  else
    let w1 : World := { w with zipFileExists := false }
    if !env.downloadOk then
      ({ w1 with zipFileExists := true }, some (.calledProcessError "wget下载失败"))
    else
      let w2 : World := { w1 with zipFileExists := true }
      if !env.downloadedIsZip then
        (w2, some (.valueError "下载的文件不是有效的ZIP文件"))
      else (w2, none)

/-- `extract_zip` as a state transformer: missing `unzip` raises
`FileNotFoundError`; otherwise any old extraction directory is removed and
the archive is unpacked (the directory also appears on a failed unpack,
which raises `CalledProcessError`). -/
def extract_zip_run (env : RunEnv) (w : World) : World × Option PyErr :=
  if !env.unzipAvailable then
    (w, some (.fileNotFoundError "系统未找到unzip命令，请确保已安装unzip"))
  else
    let w1 : World := { w with tempDirExists := false }
    if !env.extractOk then
      ({ w1 with tempDirExists := true }, some (.calledProcessError "unzip解压失败"))
    else ({ w1 with tempDirExists := true }, none)

/-- The `try` block of `main`: download, extract, check the `geo` directory,
then walk the files; any raised error ends the block early (it is caught and
logged by `main`).  Returns the final world plus the error, total and
success counters. -/
def main_body (env : RunEnv) (w : World) : World × Option PyErr × Nat × Nat :=
  match download_zip_run env w with
  | (w1, some e) => (w1, some e, 0, 0)
  | (w1, none) =>
    match extract_zip_run env w1 with
    | (w2, some e) => (w2, some e, 0, 0)
    | (w2, none) =>
      if !env.geoDirExists then
        (w2, some (.fileNotFoundError "解压后的ZIP文件中未找到meta-rules-main/geo目录"), 0, 0)
      else
        let (t, s, _) := run_batch env.files "geo" env.writeOk
        (w2, none, t, s)

/-- The `finally` block of `main`: remove the extraction directory and the
archive when they exist. -/
def cleanup (w : World) : World :=
  let w1 := if w.tempDirExists then { w with tempDirExists := false } else w
  if w1.zipFileExists then { w1 with zipFileExists := false } else w1

/-- `main`: run the body and, on every exit path, run the `finally` cleanup
on whatever world the body left behind. -/
def main_run (env : RunEnv) (w : World) : World × Option PyErr × Nat × Nat :=
  let r := main_body env w
  (cleanup r.1, r.2)

/-! ## Helper lemmas -/

/-- Appending one rendered line per element, as the formatter's loops do,
is the same as appending the mapped list. -/
theorem foldl_append_map {α β : Type} (f : α → β) (l : List α) :
    ∀ acc : List β, l.foldl (fun a x => a ++ [f x]) acc = acc ++ l.map f := by
  induction l with
  | nil => intro acc; simp
  | cons x xs ih => intro acc; simp [ih]

/-- The lines built by `format_to_payload`: the header followed by the three
mapped sections in order. -/
theorem payload_lines_spec (r : RuleSet) :
    payload_lines r =
      "payload:" :: (r.domain.map domain_line ++ r.domain_suffix.map suffix_line
        ++ r.ip_cidr.map ip_line) := by
  simp only [payload_lines, foldl_append_map]
  simp [List.append_assoc]

/-! ## Claims -/

/-- C1.  For every RuleSet with non-empty `domain`, `domain_suffix` and
`ip_cidr` lists, the formatter's line list starts with the literal line
`payload:` and has exactly `len(domain)+len(domain_suffix)+len(ip_cidr)+1`
entries, and the output string (the newline-join of those lines) starts
with the `payload:` line. -/
theorem c1_payload_header_and_count (r : RuleSet)
    (hd : r.domain ≠ []) (_hs : r.domain_suffix ≠ []) (_hi : r.ip_cidr ≠ []) :
    (payload_lines r).head? = some "payload:" ∧
    (payload_lines r).length
      = r.domain.length + r.domain_suffix.length + r.ip_cidr.length + 1 ∧
    format_to_payload r = joinLines (payload_lines r) ∧
    ∃ rest, format_to_payload r = "payload:\n" ++ rest := by
  refine ⟨?_, ?_, rfl, ?_⟩
  · rw [payload_lines_spec]; rfl
  · rw [payload_lines_spec]; simp; omega
  · obtain ⟨d, ds, hcons⟩ := List.exists_cons_of_ne_nil hd
    rw [format_to_payload, payload_lines_spec, hcons]
    exact ⟨_, rfl⟩

/-- Closed witness for C1 at a concrete one-element rule set. -/
theorem c1_payload_header_and_count_witness :
    (payload_lines ⟨["a.com"], ["b.com"], ["10.0.0.0/8"]⟩).head? = some "payload:" ∧
    (payload_lines ⟨["a.com"], ["b.com"], ["10.0.0.0/8"]⟩).length = 1 + 1 + 1 + 1 ∧
    format_to_payload ⟨["a.com"], ["b.com"], ["10.0.0.0/8"]⟩
      = joinLines (payload_lines ⟨["a.com"], ["b.com"], ["10.0.0.0/8"]⟩) ∧
    ∃ rest, format_to_payload ⟨["a.com"], ["b.com"], ["10.0.0.0/8"]⟩ = "payload:\n" ++ rest :=
  c1_payload_header_and_count ⟨["a.com"], ["b.com"], ["10.0.0.0/8"]⟩
    (by simp) (by simp) (by simp)

/-- C3.  Every domain entry `v` is rendered as the exact line
`  - (quote)v(quote)`, every suffix entry as `  - (quote)+.v(quote)`, every
ip entry as `  - (quote)v(quote)`, and no escaping is applied, so an
embedded single quote appears verbatim (second conjunct). -/
theorem c3_exact_line_rendering :
    (∀ r : RuleSet,
      payload_lines r =
        "payload:" :: (r.domain.map (fun v => "  - \x27" ++ v ++ "\x27")
          ++ r.domain_suffix.map (fun v => "  - \x27+." ++ v ++ "\x27")
          ++ r.ip_cidr.map (fun v => "  - \x27" ++ v ++ "\x27"))) ∧
    payload_lines ⟨["a\x27b.com"], [], []⟩ = ["payload:", "  - \x27a\x27b.com\x27"] := by
  constructor
  · intro r; rw [payload_lines_spec]; rfl
  · rfl

/-- C8.  The formatter is pure (two calls on one input are the same string)
and order-preserving: line `i` of each section is the rendering of element
`i` of the corresponding input list, so permuting an input list permutes
the section's output lines identically. -/
theorem c8_formatter_deterministic_order_preserving (r : RuleSet) :
    format_to_payload r = format_to_payload r ∧
    (∀ i, (h : i < r.domain.length) →
      (payload_lines r)[i + 1]? = some (domain_line r.domain[i])) ∧
    (∀ i, (h : i < r.domain_suffix.length) →
      (payload_lines r)[i + r.domain.length + 1]? = some (suffix_line r.domain_suffix[i])) ∧
    (∀ i, (h : i < r.ip_cidr.length) →
      (payload_lines r)[i + r.domain.length + r.domain_suffix.length + 1]?
        = some (ip_line r.ip_cidr[i])) := by
  refine ⟨rfl, ?_, ?_, ?_⟩
  · intro i h
    rw [payload_lines_spec, List.append_assoc, List.getElem?_cons_succ,
      List.getElem?_append_left (by simpa using h), List.getElem?_map,
      List.getElem?_eq_getElem h]
    rfl
  · intro i h
    rw [payload_lines_spec, List.append_assoc, List.getElem?_cons_succ]
    rw [List.getElem?_append_right (by simp)]
    simp only [List.length_map, Nat.add_sub_cancel]
    rw [List.getElem?_append_left (by simpa using h), List.getElem?_map,
      List.getElem?_eq_getElem h]
    rfl
  · intro i h
    rw [payload_lines_spec, List.getElem?_cons_succ,
      List.getElem?_append_right (by simp)]
    have hidx : i + r.domain.length + r.domain_suffix.length
        - (r.domain.map domain_line ++ r.domain_suffix.map suffix_line).length = i := by
      simp; omega
    rw [hidx, List.getElem?_map, List.getElem?_eq_getElem h]
    rfl

/-- Closed witness for C8 at a concrete rule set, one index per section. -/
theorem c8_formatter_deterministic_order_preserving_witness :
    (payload_lines ⟨["d"], ["s"], ["i"]⟩)[0 + 1]? = some (domain_line "d") ∧
    (payload_lines ⟨["d"], ["s"], ["i"]⟩)[0 + 1 + 1]? = some (suffix_line "s") ∧
    (payload_lines ⟨["d"], ["s"], ["i"]⟩)[0 + 1 + 1 + 1]? = some (ip_line "i") :=
  ⟨(c8_formatter_deterministic_order_preserving ⟨["d"], ["s"], ["i"]⟩).2.1 0 (by decide),
   (c8_formatter_deterministic_order_preserving ⟨["d"], ["s"], ["i"]⟩).2.2.1 0 (by decide),
   (c8_formatter_deterministic_order_preserving ⟨["d"], ["s"], ["i"]⟩).2.2.2 0 (by decide)⟩

/-- C2.  On a parsed structure whose rules container has a first element
that is a dict, the extractor returns `domain` and `ip_cidr` exactly as
found (default empty list, no coercion) and normalizes `domain_suffix` by
the three-way policy; the remaining conjuncts pin the policy down case by
case and show a bare-string suffix extracts (hence formats) exactly like
its one-element-list form while null/absent/object give zero suffix
entries. -/
theorem c2_extractor_fields_and_suffix_policy
    (json_data rules_v first : Json) (rkvs : List (String × Json))
    (h1 : getItemKey json_data "rules" = .ok rules_v)
    (h2 : getItem0 rules_v = .ok first)
    (h3 : first = .obj rkvs) :
    extract_rules json_data = .ok
      { domain := dictGetD rkvs "domain" (.arr []),
        domain_suffix := suffix_norm (dictGetD rkvs "domain_suffix" (.arr [])),
        ip_cidr := dictGetD rkvs "ip_cidr" (.arr []) } ∧
    suffix_norm (.str "example.com") = suffix_norm (.arr [.str "example.com"]) ∧
    suffix_norm .null = [] ∧
    suffix_norm (.arr []) = [] ∧
    suffix_norm (.obj [("k", .str "v")]) = [] ∧
    suffix_norm (.num 3) = [] ∧
    extract_rules (.obj [("rules", .arr [.obj [("domain_suffix", .str "example.com")]])])
      = extract_rules (.obj [("rules", .arr [.obj [("domain_suffix",
          .arr [.str "example.com"])]])]) ∧
    (match extract_rules (.obj [("rules", .arr [.obj [("domain_suffix",
        .str "example.com")]])]) with
      | .ok r => format_to_payload_dyn r
      | .error e => .error e)
      = .ok "payload:\n  - \x27+.example.com\x27" := by
  subst h3
  refine ⟨?_, rfl, rfl, rfl, rfl, rfl, rfl, rfl⟩
  simp [extract_rules, h1, h2, pyDictGet]

/-- Closed witness for C2 at a concrete rules object. -/
theorem c2_extractor_fields_and_suffix_policy_witness :
    extract_rules (.obj [("rules", .arr [.obj [("domain", .arr [.str "d.com"])]])])
      = .ok
        { domain := dictGetD [("domain", Json.arr [Json.str "d.com"])] "domain" (.arr []),
          domain_suffix := suffix_norm (dictGetD [("domain", Json.arr [Json.str "d.com"])]
            "domain_suffix" (.arr [])),
          ip_cidr := dictGetD [("domain", Json.arr [Json.str "d.com"])] "ip_cidr" (.arr []) } :=
  (c2_extractor_fields_and_suffix_policy
    (.obj [("rules", .arr [.obj [("domain", .arr [.str "d.com"])]])])
    (.arr [.obj [("domain", .arr [.str "d.com"])]])
    (.obj [("domain", .arr [.str "d.com"])])
    [("domain", .arr [.str "d.com"])] rfl rfl rfl).1

/-- C7.  For a parsed top-level dict whose `rules` entry, when present, is a
list, the extractor fails with the structural `KeyError` exactly when the
`rules` key is absent or the list is empty; and such a failure is local to
the file: `process_json_file` catches it and reports `false` with no write
(the batch loop of `main` then just moves on, see the run_batch theorem). -/
theorem c7_structural_error_iff_and_local (kvs : List (String × Json))
    (hrules : ∀ v, kvs.lookup "rules" = some v → ∃ xs, v = Json.arr xs) :
    ((∃ m, extract_rules (Json.obj kvs) = .error (.keyError m)) ↔
      (kvs.lookup "rules" = none ∨ kvs.lookup "rules" = some (Json.arr []))) ∧
    (∀ (path obd : String) (wOk : String → Bool) (m : String),
      extract_rules (Json.obj kvs) = .error (.keyError m) →
      process_json_file (.ok (Json.obj kvs)) path obd wOk = (false, [])) := by
  constructor
  · cases hl : kvs.lookup "rules" with
    | none =>
      constructor
      · intro _; exact Or.inl rfl
      · intro _
        exact ⟨structMsg "rules", by simp [extract_rules, getItemKey, hl]⟩
    | some v =>
      obtain ⟨xs, rfl⟩ := hrules v hl
      cases xs with
      | nil =>
        constructor
        · intro _; exact Or.inr rfl
        · intro _
          exact ⟨structMsg "list index out of range",
            by simp [extract_rules, getItemKey, getItem0, hl]⟩
      | cons x xs' =>
        constructor
        · rintro ⟨m, hm⟩
          exfalso
          cases x <;> simp [extract_rules, getItemKey, getItem0, hl, pyDictGet] at hm
        · rintro (habs | hsome)
          · exact absurd habs (by simp)
          · exact absurd hsome (by simp)
  · intro path obd wOk m hm
    simp [process_json_file, pipeline, load_json, hm]

/-- Closed witness for C7 at an empty rules list. -/
theorem c7_structural_error_iff_and_local_witness :
    ∃ m, extract_rules (Json.obj [("rules", Json.arr [])]) = .error (.keyError m) :=
  ((c7_structural_error_iff_and_local [("rules", Json.arr [])]
    (fun v hv => ⟨[], by simpa using hv.symm⟩)).1).mpr (Or.inr rfl)

/-- C10.  `process_json_file` is total and never propagates an exception: it
answers `true` exactly when the pipeline completed, any pipeline exception
of any class yields `(false, no write)`, and in particular a `TypeError`
from a non-dict top level (here an integer or a list) and the
`AttributeError` from a non-dict first rules element are caught too. -/
theorem c10_process_total_catches_all
    (parsed : Except String Json) (path obd : String) (wOk : String → Bool) :
    ((process_json_file parsed path obd wOk).1 = true ↔
      ∃ w, pipeline parsed path obd wOk = .ok w) ∧
    (∀ e, pipeline parsed path obd wOk = .error e →
      process_json_file parsed path obd wOk = (false, [])) ∧
    (∀ n : Int, process_json_file (.ok (.num n)) path obd wOk = (false, [])) ∧
    process_json_file (.ok (.arr [])) path obd wOk = (false, []) ∧
    process_json_file (.ok (.obj [("rules", .arr [.str "x"])])) path obd wOk
      = (false, []) := by
  refine ⟨?_, ?_, ?_, ?_, ?_⟩
  · cases hp : pipeline parsed path obd wOk <;> simp [process_json_file, hp]
  · intro e he; simp [process_json_file, he]
  · intro n
    simp [process_json_file, pipeline, load_json, extract_rules, getItemKey]
  · simp [process_json_file, pipeline, load_json, extract_rules, getItemKey]
  · simp [process_json_file, pipeline, load_json, extract_rules, getItemKey,
      getItem0, pyDictGet]

/-- Closed witness for C10: the catch-all arm at a concrete non-dict top
level. -/
theorem c10_process_total_catches_all_witness :
    process_json_file (.ok (.arr [])) "a/b.json" "geo" (fun _ => true) = (false, []) :=
  (c10_process_total_catches_all (.ok (.arr [])) "a/b.json" "geo" (fun _ => true)).2.1
    (.typeError "list indices must be integers or slices, not str") rfl

/-- C4.  End-to-end per-file transform on the concrete input
`d("rules", [d("domain", ["a.com"]) d("domain_suffix", "b.com")
d("ip_cidr", ["1.2.3.0/24"])])` at a `geosite` path with basename
`x.json`: the output goes to `geo/geosite/site_x.txt` with exactly the
expected three payload lines. -/
theorem c4_end_to_end_concrete :
    process_json_file
      (.ok (.obj [("rules", .arr [.obj [("domain", .arr [.str "a.com"]),
        ("domain_suffix", .str "b.com"), ("ip_cidr", .arr [.str "1.2.3.0/24"])]])]))
      "temp_extract/meta-rules-main/geo/geosite/x.json" "geo" (fun _ => true)
    = (true, [⟨"geo/geosite/site_x.txt",
        "payload:\n  - \x27a.com\x27\n  - \x27+.b.com\x27\n  - \x271.2.3.0/24\x27"⟩]) := rfl

/-- C6.  Batch error isolation: over any discovered file list, a per-file
failure is absorbed at the file boundary, so the total counter is the
number of discovered files, the success counter is the number of files
whose pipeline completed, each completed file contributes exactly its one
write (no file stops the batch); and the concrete 3-valid-plus-1-malformed
batch reports 3 of 4 with exactly 3 outputs, the malformed file sitting in
the middle. -/
theorem c6_batch_error_isolation :
    (∀ (files : List FileEntry) (obd : String) (wOk : String → Bool),
      (run_batch files obd wOk).1 = files.length ∧
      (run_batch files obd wOk).2.1
        = files.countP (fun f => exOk (pipeline f.parsed f.path obd wOk)) ∧
      (run_batch files obd wOk).2.2.length = (run_batch files obd wOk).2.1) ∧
    run_batch
      [⟨"temp_extract/meta-rules-main/geo/geosite/a.json",
         .ok (.obj [("rules", .arr [.obj [("domain", .arr [.str "a.com"])]])])⟩,
       ⟨"temp_extract/meta-rules-main/geo/geosite/bad.json",
         .error "Expecting value: line 1 column 1 (char 0)"⟩,
       ⟨"temp_extract/meta-rules-main/geo/geosite/b.json",
         .ok (.obj [("rules", .arr [.obj [("domain_suffix", .str "b.com")]])])⟩,
       ⟨"temp_extract/meta-rules-main/geo/geoip/c.json",
         .ok (.obj [("rules", .arr [.obj [("ip_cidr", .arr [.str "10.0.0.0/8"])]])])⟩]
      "geo" (fun _ => true)
    = (4, 3, [⟨"geo/geosite/site_a.txt", "payload:\n  - \x27a.com\x27"⟩,
              ⟨"geo/geosite/site_b.txt", "payload:\n  - \x27+.b.com\x27"⟩,
              ⟨"geo/geoip/ip_c.txt", "payload:\n  - \x2710.0.0.0/8\x27"⟩]) := by
  constructor
  · intro files obd wOk
    induction files with
    | nil => exact ⟨rfl, rfl, rfl⟩
    | cons f rest ih =>
      obtain ⟨ih1, ih2, ih3⟩ := ih
      cases hp : pipeline f.parsed f.path obd wOk with
      | ok w =>
        refine ⟨?_, ?_, ?_⟩ <;>
          simp [run_batch, process_json_file, hp, List.countP_cons, exOk,
            ih1, ih2, ih3, Nat.add_comm]
      | error e =>
        refine ⟨?_, ?_, ?_⟩ <;>
          simp [run_batch, process_json_file, hp, List.countP_cons, exOk,
            ih1, ih2, ih3]
  · rfl

/-- C9.  Unconditional cleanup: whatever the stage outcomes (tool missing,
failed download, non-ZIP content, failed extraction, missing layout, any
mix of per-file failures) and whatever the initial on-disk state, after
`main` the temporary extraction directory and the downloaded archive are
gone. -/
theorem c9_cleanup_always_runs (env : RunEnv) (w : World) :
    ((main_run env w).1).tempDirExists = false ∧
    ((main_run env w).1).zipFileExists = false := by
  have h : ∀ w' : World, (cleanup w').tempDirExists = false ∧
      (cleanup w').zipFileExists = false := by
    intro w'
    obtain ⟨t, z⟩ := w'
    cases t <;> cases z <;> exact ⟨rfl, rfl⟩
  exact h (main_body env w).1

/-- Every character of a replacement result comes from the replacement text
or from the subject. -/
theorem mem_replaceAllAux (pat rep : List Char) (fuel : Nat) (l : List Char) :
    ∀ c ∈ replaceAllAux pat rep fuel l, c ∈ rep ∨ c ∈ l := by
  induction fuel generalizing l with
  | zero => intro c hc; simp [replaceAllAux] at hc
  | succ n ih =>
    intro c hc
    cases l with
    | nil => simp [replaceAllAux] at hc
    | cons a as =>
      by_cases hp : pat.isPrefixOf (a :: as)
      · rw [replaceAllAux, if_pos hp] at hc
        rcases List.mem_append.mp hc with h | h
        · exact Or.inl h
        · rcases ih _ c h with h' | h'
          · exact Or.inl h'
          · exact Or.inr (List.drop_subset _ _ h')
      · rw [replaceAllAux, if_neg hp] at hc
        rcases List.mem_cons.mp hc with h | h
        · exact Or.inr (h ▸ List.mem_cons_self a as)
        · rcases ih _ c h with h' | h'
          · exact Or.inl h'
          · exact Or.inr (List.mem_cons_of_mem a h')

/-- A basename contains no slash. -/
theorem basename_no_slash (p : String) : ∀ c ∈ (basename p).data, c ≠ '/' := by
  intro c hc
  have hc' : c ∈ (p.data.reverse.takeWhile (fun c => c != '/')) := by
    simpa [basename, List.mem_reverse] using hc
  simpa using List.mem_takeWhile_imp hc'

/-- Dropping the `.json` occurrences from a basename and appending `.txt`
never yields an absolute path. -/
theorem stem_txt_not_absolute (p : String) :
    startsWithSlash (strReplace (basename p) ".json" "" ++ ".txt") = false := by
  have hmem : ∀ c ∈ (strReplace (basename p) ".json" "").data, c ≠ '/' := by
    intro c hc
    have hc' : c ∈ replaceAllAux ".json".data [] (basename p).data.length (basename p).data := by
      simpa [strReplace] using hc
    rcases mem_replaceAllAux ".json".data [] _ _ c hc' with h | h
    · simp at h
    · exact basename_no_slash p c h
  have hdata : (strReplace (basename p) ".json" "" ++ ".txt").data
      = (strReplace (basename p) ".json" "").data ++ ".txt".data := rfl
  cases hd : (strReplace (basename p) ".json" "").data with
  | nil =>
    rw [startsWithSlash, hdata, hd]
    rfl
  | cons c cs =>
    have hc : c ≠ '/' := hmem c (by rw [hd]; exact List.mem_cons_self c cs)
    rw [startsWithSlash, hdata, hd]
    simpa using hc

/-- C5 counterexample.  At the input path `data/geosite/a.json.json` the
code removes every `.json` occurrence from the basename, producing
`geo/geosite/site_a.txt`, not the `geo/geosite/site_a.json.txt` that
"basename with its `.json` extension removed" prescribes. -/
theorem c5_counterexample :
    output_path "data/geosite/a.json.json" "geo" = "geo/geosite/site_a.txt" ∧
    ¬ output_path "data/geosite/a.json.json" "geo" = "geo/geosite/site_a.json.txt" :=
  ⟨rfl, by decide⟩

/-- C5 as amended.  File routing for the fixed output base `geo`: a path
holding `geosite` goes to `geo/geosite/site_(stem).txt`, otherwise one
holding `geoip` goes to `geo/geoip/ip_(stem).txt`, otherwise to
`geo/geosite/(stem).txt`, where `stem` is the basename with every
occurrence of the substring `.json` removed (not only a final
extension). -/
theorem c5_routing_amended (json_path : String) :
    output_path json_path "geo" =
      (let stem := strReplace (basename json_path) ".json" ""
       if pyIn json_path "geosite" then "geo/geosite/site_" ++ stem ++ ".txt"
       else if pyIn json_path "geoip" then "geo/geoip/ip_" ++ stem ++ ".txt"
       else "geo/geosite/" ++ stem ++ ".txt") := by
  have hst := stem_txt_not_absolute json_path
  unfold output_path
  by_cases h1 : pyIn json_path "geosite" = true
  · simp only [h1, if_true]
    rfl
  · simp only [h1, Bool.false_eq_true, if_false]
    by_cases h2 : pyIn json_path "geoip" = true
    · simp only [h2, if_true]
      rfl
    · simp only [h2, Bool.false_eq_true, if_false]
      show path_join2 (path_join2 "geo" "geosite")
          (strReplace (basename json_path) ".json" "" ++ ".txt") = _
      have hjoin : path_join2 "geo" "geosite" = "geo/geosite" := rfl
      rw [hjoin, path_join2, hst]
      rw [if_neg (by decide), if_neg (by decide), if_neg (by decide)]
      rfl

end GeoRules
